import Mathlib

/-!
Shallow embedding of the `azure-indigent-defense` court-records scraper
(`src/http-scraper/__init__.py`, `src/shared/helpers.py`, `src/shared/pre2017.py`)
together with proofs about its fetch-retry, work-partitioning, content-hashing
and legacy record-extraction logic.

Python machine-level details are embedded as follows: strings are Lean
`String`/`List Char`; Python's `in` substring test, `str.split`, slicing and
`list.insert` are reimplemented below with Python semantics; code that can
raise an exception is embedded in the `Option`/`Except` monad (with `none`
or `.error` for a raised exception); dictionaries whose construction order
matters are embedded as association lists.
-/

set_option linter.unusedVariables false

namespace CourtScraper

/-- Python substring helper: does the char list `hay` begin with `needle`
(the semantics of `hay[:len(needle)] == needle`)? -/
def listStarts : List Char → List Char → Bool
  | _, [] => true
  | [], _ :: _ => false
  | a :: as, b :: bs => if a = b then listStarts as bs else false

/-- Python's `needle in hay` substring test on char lists. -/
def listHasSub : List Char → List Char → Bool
  | [], needle => listStarts [] needle
  | a :: t, needle => listStarts (a :: t) needle || listHasSub t needle

/-- Python's `needle in hay` on strings. -/
def strHasSub (hay needle : String) : Bool :=
  listHasSub hay.data needle.data

/-- Python's `s[:len(pre)] == pre` on strings. -/
def strStarts (s pre : String) : Bool :=
  listStarts s.data pre.data

/-- Python's `str.lower` on a char list (ASCII as used by the scraper). -/
def lowerChars (cs : List Char) : List Char :=
  cs.map Char.toLower

/-- Split a char list at every separator char, keeping empty pieces. -/
def splitAnyGo (p : Char → Bool) : List Char → List Char → List (List Char)
  | cur, [] => [cur.reverse]
  | cur, c :: cs =>
    if p c then cur.reverse :: splitAnyGo p [] cs else splitAnyGo p (c :: cur) cs

/-- Python's no-argument `str.split()`: split on whitespace runs, dropping
empty pieces. -/
def pySplitWs (s : String) : List String :=
  ((splitAnyGo (fun c => c.isWhitespace) [] s.data).map String.mk).filter
    (fun t => t ≠ "")

/-- Python's `str.split(",")`: split at every comma, keeping empty pieces. -/
def pySplitOnComma (s : String) : List String :=
  (splitAnyGo (fun c => c = ',') [] s.data).map String.mk

/-- Python's `sep.join(parts)`. -/
def joinSep (sep : String) : List String → String
  | [] => ""
  | [x] => x
  | x :: y :: ys => x ++ sep ++ joinSep sep (y :: ys)

/-- Python's `s[n:]` on a string. -/
def pyStrDrop (n : Nat) (s : String) : String := String.mk (s.data.drop n)

/-- Python's `list.insert(n, a)`: insert at position `n`, clamped to the end. -/
def pyInsert {α : Type} (n : Nat) (a : α) (l : List α) : List α :=
  l.take n ++ a :: l.drop n

/-- Quote character used by Python `repr` of a string. -/
def quoteChar : Char := Char.ofNat 39

/-- Element separator `", "` used by Python `str` of a list. -/
def sepCS : List Char := [',', ' ']

/-- Python `repr` of a string (quote-free cell contents, as in the scraped
tables): surrounding single quotes. -/
def pyReprStr (s : String) : List Char :=
  quoteChar :: s.data ++ [quoteChar]

/-- Join char lists with a separator, as Python's `", ".join` does when
`str` renders a list. -/
def joinChars (sep : List Char) : List (List Char) → List Char
  | [] => []
  | [x] => x
  | x :: y :: ys => x ++ sep ++ joinChars sep (y :: ys)

/-- Python `str` of a list of strings: `['a', 'b']`. -/
def pyReprRow (r : List String) : List Char :=
  '[' :: joinChars sepCS (r.map pyReprStr) ++ [']']

/-- Python `str` of a list of lists of strings, as evaluated by
`str(defendant_rows)` and `str(other_event_rows)` in `src/shared/pre2017.py`. -/
def pyReprRows (rs : List (List String)) : List Char :=
  '[' :: joinChars sepCS (rs.map pyReprRow) ++ [']']

/-! ### xxHash64 (`xxhash.xxh64(...).hexdigest()` used by `hash_case_html`)

The 64-bit arithmetic of the reference algorithm is embedded on `Nat`
with explicit reduction modulo `2 ^ 64`. -/

/-- Modulus of 64-bit machine arithmetic. -/
def M64 : Nat := 2 ^ 64

/-- First xxHash64 prime. -/
def xxPrime1 : Nat := 0x9E3779B185EBCA87

/-- Second xxHash64 prime. -/
def xxPrime2 : Nat := 0xC2B2AE3D27D4EB4F

/-- Third xxHash64 prime. -/
def xxPrime3 : Nat := 0x165667B19E3779F9

/-- Fourth xxHash64 prime. -/
def xxPrime4 : Nat := 0x85EBCA77C2B2AE63

/-- Fifth xxHash64 prime. -/
def xxPrime5 : Nat := 0x27D4EB2F165667C5

/-- 64-bit multiplication. -/
def mul64 (a b : Nat) : Nat := a * b % M64

/-- 64-bit addition. -/
def add64 (a b : Nat) : Nat := (a + b) % M64

/-- 64-bit subtraction (two's complement wraparound). -/
def sub64 (a b : Nat) : Nat := (a % M64 + (M64 - b % M64)) % M64

/-- 64-bit left rotation of a value already reduced mod `2 ^ 64`. -/
def rotl64 (x r : Nat) : Nat := (x <<< r) % M64 ||| x >>> (64 - r)

/-- One xxHash64 accumulator round. -/
def xxRound (acc lane : Nat) : Nat :=
  mul64 (rotl64 (add64 acc (mul64 lane xxPrime2)) 31) xxPrime1

/-- xxHash64 merge round for long inputs. -/
def xxMergeRound (acc v : Nat) : Nat :=
  add64 (mul64 (acc ^^^ xxRound 0 v) xxPrime1) xxPrime4

/-- Little-endian value of a byte list. -/
def leNat : List Nat → Nat
  | [] => 0
  | b :: bs => b + 256 * leNat bs

/-- Consume 32-byte stripes with the four xxHash64 lanes. -/
def xxStripes (v1 v2 v3 v4 : Nat) (bs : List Nat) :
    Nat × Nat × Nat × Nat × List Nat :=
  if h : 32 ≤ bs.length then
    xxStripes (xxRound v1 (leNat (bs.take 8)))
      (xxRound v2 (leNat ((bs.drop 8).take 8)))
      (xxRound v3 (leNat ((bs.drop 16).take 8)))
      (xxRound v4 (leNat ((bs.drop 24).take 8)))
      (bs.drop 32)
  else (v1, v2, v3, v4, bs)
termination_by bs.length
decreasing_by simp only [List.length_drop]; omega

/-- Consume trailing 8-byte lanes. -/
def xxTail8 (acc : Nat) (bs : List Nat) : Nat × List Nat :=
  if h : 8 ≤ bs.length then
    xxTail8
      (add64 (mul64 (rotl64 (acc ^^^ xxRound 0 (leNat (bs.take 8))) 27) xxPrime1) xxPrime4)
      (bs.drop 8)
  else (acc, bs)
termination_by bs.length
decreasing_by simp only [List.length_drop]; omega

/-- Consume a trailing 4-byte lane. -/
def xxTail4 (acc : Nat) (bs : List Nat) : Nat × List Nat :=
  if 4 ≤ bs.length then
    (add64 (mul64 (rotl64 (acc ^^^ mul64 (leNat (bs.take 4)) xxPrime1) 23) xxPrime2) xxPrime3,
      bs.drop 4)
  else (acc, bs)

/-- Consume the remaining single bytes. -/
def xxTail1 : Nat → List Nat → Nat
  | acc, [] => acc
  | acc, b :: bs => xxTail1 (mul64 (rotl64 (acc ^^^ mul64 b xxPrime5) 11) xxPrime1) bs

/-- xxHash64 final avalanche. -/
def xxAvalanche (acc : Nat) : Nat :=
  let a1 := acc ^^^ (acc >>> 33)
  let a2 := mul64 a1 xxPrime2
  let a3 := a2 ^^^ (a2 >>> 29)
  let a4 := mul64 a3 xxPrime3
  a4 ^^^ (a4 >>> 32)

/-- xxHash64 of a byte list with the given seed. -/
def xxh64 (bytes : List Nat) (seed : Nat) : Nat :=
  let n := bytes.length
  let start :=
    if 32 ≤ n then
      let s := xxStripes (add64 seed (add64 xxPrime1 xxPrime2)) (add64 seed xxPrime2)
        (seed % M64) (sub64 seed xxPrime1) bytes
      let a0 := add64 (add64 (rotl64 s.1 1) (rotl64 s.2.1 7))
        (add64 (rotl64 s.2.2.1 12) (rotl64 s.2.2.2.1 18))
      (xxMergeRound (xxMergeRound (xxMergeRound (xxMergeRound a0 s.1) s.2.1) s.2.2.1) s.2.2.2.1,
        s.2.2.2.2)
    else (add64 seed xxPrime5, bytes)
  let acc1 := add64 start.1 n
  let t8 := xxTail8 acc1 start.2
  let t4 := xxTail4 t8.1 t8.2
  xxAvalanche (xxTail1 t4.1 t4.2)

/-- UTF-8 encoding of one code point. -/
def encodeChar (n : Nat) : List Nat :=
  if n < 0x80 then [n]
  else if n < 0x800 then [0xC0 + n / 64, 0x80 + n % 64]
  else if n < 0x10000 then [0xE0 + n / 4096, 0x80 + n / 64 % 64, 0x80 + n % 64]
  else [0xF0 + n / 262144, 0x80 + n / 4096 % 64, 0x80 + n / 64 % 64, 0x80 + n % 64]

/-- UTF-8 bytes of a string, as Python encodes a `str` before hashing. -/
def utf8Bytes (s : String) : List Nat :=
  s.data.flatMap (fun c => encodeChar c.toNat)

/-- Lower-case hex digit. -/
def hexChar (n : Nat) : Char :=
  if n < 10 then Char.ofNat (48 + n) else Char.ofNat (87 + n)

/-- Zero-padded lower-case hex rendering with the given digit count. -/
def toHexPad : Nat → Nat → List Char
  | _, 0 => []
  | n, d + 1 => toHexPad (n / 16) d ++ [hexChar (n % 16)]

/-- `xxhash.xxh64(s).hexdigest()` of a Python string. -/
def xxh64hex (s : String) : String :=
  ⟨toHexPad (xxh64 (utf8Bytes s) 0) 16⟩

/-! ### Case-document fingerprinting (`hash_case_html`, `src/shared/helpers.py:180-198`)

A fetched case page is embedded as the text of the case-number spans
(`div.ssCaseDetailCaseNbr > span`) plus the body content, a flat list of
top-level chunks each of which is a `<table>` element or other markup.
`find_all("table")` is the list of table chunks in order, `decompose`
removes a chunk, and `str(body)` is the concatenation of the chunk
serializations inside the body tags. -/

/-- One `<table>` element: its `.text` and its markup serialization. -/
structure TableNode where
  text : String
  serial : String
deriving DecidableEq

/-- One top-level node of the body: a table or other markup. -/
inductive Chunk where
  | table : TableNode → Chunk
  | markup : String → Chunk
deriving DecidableEq

/-- Is this chunk a `<table>` element? -/
def Chunk.isTable : Chunk → Bool
  | .table _ => true
  | .markup _ => false

/-- Markup serialization of a chunk. -/
def chunkSerial : Chunk → String
  | .table t => t.serial
  | .markup s => s

/-- `body.find_all("table")`: the table chunks in document order. -/
def findTables (cs : List Chunk) : List TableNode :=
  cs.filterMap (fun c => match c with | .table t => some t | .markup _ => none)

/-- Remove the first table chunk of a list (helper for `removeLastTab`). -/
def removeFirstTab : List Chunk → List Chunk
  | [] => []
  | c :: rest => if c.isTable then rest else c :: removeFirstTab rest

/-- `balance_table.decompose()`: remove the last table chunk from the body. -/
def removeLastTab (cs : List Chunk) : List Chunk :=
  (removeFirstTab cs.reverse).reverse

/-- A raw case document as consumed by `hash_case_html`. -/
structure CaseHtml where
  caseNbrSpans : List String
  chunks : List Chunk
deriving DecidableEq

/-- `str(body)` after any decomposition. -/
def serializeBody (cs : List Chunk) : String :=
  "<body>" ++ String.join (cs.map chunkSerial) ++ "</body>"

/-- `hash_case_html` (`src/shared/helpers.py:180-198`): extract the case
number from the first case-number span, strip the last table of the body
when its text contains `"Balance Due"`, and return
`(file_hash, case_no)`. `none` embeds the `IndexError` raised when the
span list or the table list is empty. -/
def hash_case_html (d : CaseHtml) : Option (String × String) := do
  let caseNo ← d.caseNbrSpans.head?
  let balanceTab ← (findTables d.chunks).getLast?
  let cleaned := if strHasSub balanceTab.text "Balance Due" then removeLastTab d.chunks
    else d.chunks
  some (xxh64hex (serializeBody cleaned), caseNo)

/-! ### Resilient fetch (`request_page_with_retry`, `src/shared/helpers.py:99-139`)

The transport is embedded as a function from the attempt index to the
response it returns; `response.ok` and `response.text` are the only
observed fields. A raised exception is `Except.error`. -/

/-- Observed part of a `requests` response. -/
structure HttpResponse where
  ok : Bool
  text : String

/-- Error message produced by `write_debug_and_raise`
(`src/shared/helpers.py:44-60`), ignoring the constant suffix about the
debug file. -/
def writeDebugMsg (v : String) : String :=
  if v ≠ "" then v ++ " could not be found in page." else "Failed to load page."

/-- The retry loop of `request_page_with_retry` starting at attempt `i`:
returns the first successful response paired with the total number of
attempts issued, or `none` with `maxRetries + 1` attempts when the budget
is exhausted (`src/shared/helpers.py:112-131`). -/
def retryLoop (resp : Nat → HttpResponse) (maxRetries i : Nat) :
    Option HttpResponse × Nat :=
  if (resp i).ok then (some (resp i), i + 1)
  else if maxRetries < i + 1 then (none, i + 1)
  else retryLoop resp maxRetries (i + 1)
termination_by maxRetries + 1 - i
decreasing_by omega

/-- `request_page_with_retry` (`src/shared/helpers.py:99-139`): retry on
non-success status, then require the verification text (when truthy) to
occur in the response body. -/
def request_page_with_retry (resp : Nat → HttpResponse) (verification_text : String)
    (maxRetries : Nat) : Except String String :=
  match retryLoop resp maxRetries 0 with
  | (none, _) => Except.error (writeDebugMsg verification_text)
  | (some r, _) =>
    if verification_text ≠ "" ∧ strHasSub r.text verification_text = false then
      Except.error (writeDebugMsg verification_text)
    else Except.ok r.text

/-- Number of transport attempts a call to `request_page_with_retry` issues. -/
def requestAttempts (resp : Nat → HttpResponse) (maxRetries : Nat) : Nat :=
  (retryLoop resp maxRetries 0).2

/-! ### Work partitioning and the main scrape loop (`src/http-scraper/__init__.py:130-268`) -/

/-- The batching slices `case_urls[i:i+cases_batch_size]` for
`i in range(0, len(case_urls), cases_batch_size)`
(`src/http-scraper/__init__.py:200-202`), with the batch-size constant
bound as the module intends (`CASE_BATCH_SIZE`, line 16; the code as
written misnames it `cases_batch_size`). A zero batch size is Python's
`range` `ValueError`, embedded as no batches. -/
def sliceBatches {α : Type} (bs : Nat) (l : List α) : List (List α) :=
  if h : bs = 0 ∨ l.isEmpty = true then []
  else l.take bs :: sliceBatches bs (l.drop bs)
termination_by l.length
decreasing_by
  simp only [List.length_drop]
  rw [not_or] at h
  obtain ⟨h1, h2⟩ := h
  have h3 : l ≠ [] := by
    intro he
    exact h2 (by simp [he])
  have := List.length_pos.mpr h3
  omega

/-- Outcome of the inline-scrape loop over one result set: the case
references whose document was written to the sink, whether the test-mode
`return` fired, and whether a fetch failure aborted the run
(`src/http-scraper/__init__.py:175-194` and `233-268`). -/
structure InlineOutcome (α : Type) where
  written : List α
  testStop : Bool
  aborted : Bool
deriving DecidableEq

/-- The inline per-case loop: fetch each case (a failed fetch raises and
aborts), write its document, and in test mode return after the first case. -/
def processInline {α : Type} (fetchOk : α → Bool) (isTest : Bool) :
    List α → InlineOutcome α
  | [] => ⟨[], false, false⟩
  | c :: cs =>
    if fetchOk c then
      if isTest then ⟨[c], true, false⟩
      else
        let r := processInline fetchOk isTest cs
        ⟨c :: r.written, r.testStop, r.aborted⟩
    else ⟨[], false, true⟩

/-- Outcome of handling one search-result set: documents written inline,
batches handed to the queue, test-mode return, abort. -/
structure SetOutcome (α : Type) where
  written : List α
  batches : List (List α)
  testStop : Bool
  aborted : Bool
deriving DecidableEq

/-- Per-result-set dispatch (`src/http-scraper/__init__.py:165-268`): for a
legacy portal (`odyssey_version < 2017`), scrape inline when there are at
most 10 cases or the run is a test, otherwise enqueue fixed-size batches;
for a modern portal, always scrape inline. -/
def handleResultSet {α : Type} (odysseyVersion batchSize : Nat) (fetchOk : α → Bool)
    (isTest : Bool) (refs : List α) : SetOutcome α :=
  if odysseyVersion < 2017 then
    if refs.length ≤ 10 || isTest then
      let r := processInline fetchOk isTest refs
      ⟨r.written, [], r.testStop, r.aborted⟩
    else ⟨[], sliceBatches batchSize refs, false, false⟩
  else
    let r := processInline fetchOk isTest refs
    ⟨r.written, [], r.testStop, r.aborted⟩

/-- The day × judicial-officer loop of `main`, flattened to the sequence of
result sets it retrieves: each set is dispatched, the whole run stops on a
test-mode return or an abort (`src/http-scraper/__init__.py:130-268`). -/
def runSets {α : Type} (odysseyVersion batchSize : Nat) (fetchOk : α → Bool)
    (isTest : Bool) : List (List α) → SetOutcome α
  | [] => ⟨[], [], false, false⟩
  | s :: rest =>
    let o := handleResultSet odysseyVersion batchSize fetchOk isTest s
    if o.testStop || o.aborted then o
    else
      let r := runSets odysseyVersion batchSize fetchOk isTest rest
      ⟨o.written ++ r.written, o.batches ++ r.batches, r.testStop, r.aborted⟩

/-- The (day, judicial officer) search submissions the run performs: for each
day and each requested officer name, an officer absent from the harvested
name-to-id mapping is skipped with a log line
(`src/http-scraper/__init__.py:138-161`); otherwise a search for
`(day, name, id)` is submitted. -/
def submitSearches (days : List String) (officers : List String)
    (officerToId : List (String × String)) : List (String × String × String) :=
  days.flatMap (fun d =>
    officers.filterMap (fun name =>
      (List.lookup name officerToId).map (fun jid => (d, name, jid))))

/-! ### Legacy harvest (`src/http-scraper/__init__.py:97-121`) -/

/-- One `<option>` element of a select box. -/
structure PageOption where
  text : String
  value : String
deriving DecidableEq

/-- Observed part of a parsed page. -/
structure PageSoup where
  hiddenInputs : List (String × String)
  allOptions : List PageOption
  officerOptions : List PageOption
deriving DecidableEq

/-- The harvested legacy search session. -/
structure SearchSession where
  hiddenFields : List (String × String)
  officerToId : List (String × String)
  nodeDesc : Option String
  nodeId : String
deriving DecidableEq

/-- Judicial-officer name-to-id mapping harvested from the search page
options, keeping options with truthy text
(`src/http-scraper/__init__.py:113-121`). -/
def buildOfficerMap (opts : List PageOption) : List (String × String) :=
  opts.filterMap (fun o => if o.text ≠ "" then some (o.text, o.value) else none)

/-- The value of the name `main_soup` at `src/http-scraper/__init__.py:104`:
no binding for that name exists anywhere in `main`, so evaluating it raises
`NameError`; the absent binding is embedded as `none`. -/
def mainSoupInScope : Option PageSoup := none

/-- The legacy (`odyssey_version < 2017`) harvest step
(`src/http-scraper/__init__.py:97-121`): collect the hidden input fields,
read `NodeDesc`/`NodeID` from the first option of the main-page location
select box, and build the officer mapping. The location read dereferences
`main_soup`, which is not in scope. -/
def legacyHarvest (searchSoup : PageSoup) (location : Option String) :
    Option SearchSession := do
  let hidden := searchSoup.hiddenInputs
  let mainSoup ← mainSoupInScope
  let locationOption ← mainSoup.allOptions.head?
  some
    { hiddenFields := hidden
      officerToId := buildOfficerMap searchSoup.officerOptions
      nodeDesc := location
      nodeId := locationOption.value }

/-! ### Legacy party-information extraction (`src/shared/pre2017.py:37-153`) -/

/-- The `party_information` record built by the legacy parser. -/
structure PartyInfo where
  defendant : String
  sex : String
  race : String
  dateOfBirth : String
  height : String
  weight : String
  defenseAttorney : String
  appointedOrRetained : String
  defenseAttorneyPhone : String
  defendantAddress : String
  sid : String
  prosecutingAttorney : String
  prosecutingAttorneyPhone : String
  prosecutingAttorneyAddress : String
  bondsman : String
  bondsmanAddress : String
deriving DecidableEq

/-- The bottom-up section loop of the party table
(`src/shared/pre2017.py:50-63`), processing the popped rows (the reversed
row list), appending each row to the current section's accumulator, then
advancing the section on a `"State"`/`"Defendant"` marker and breaking on a
`"Bondsman"` marker. An empty popped row also ends the loop. -/
def sectionGo : String → List (List String) → List (List String) →
    List (List String) → List (List String) →
    List (List String) × List (List String) × List (List String)
  | _, [], sAcc, dAcc, bAcc => (sAcc, dAcc, bAcc)
  | sec, row :: rest, sAcc, dAcc, bAcc =>
    if row = [] then (sAcc, dAcc, bAcc)
    else
      let h := row.headD ""
      let sAcc' := if sec = "state" then sAcc ++ [row] else sAcc
      let dAcc' := if sec = "defendant" then dAcc ++ [row] else dAcc
      let bAcc' := if sec = "bondsman" then bAcc ++ [row] else bAcc
      let sec1 := if h = "State" then "defendant" else sec
      let sec2 := if h = "Defendant" then "bondsman" else sec1
      if h = "Bondsman" then (sAcc', dAcc', bAcc')
      else sectionGo sec2 rest sAcc' dAcc' bAcc'

/-- Section split of the party-table rows: accumulators in append (pop)
order, starting in the `"state"` section. -/
def partySections (rows : List (List String)) :
    List (List String) × List (List String) × List (List String) :=
  sectionGo "state" rows.reverse [] [] []

/-- The gender-position scan (`src/shared/pre2017.py:67-72`): index of the
last cell starting with `"Male "` or `"Female "`, defaulting to 0. -/
def genderPosGo : Nat → Nat → List String → Nat
  | _, acc, [] => acc
  | i, acc, c :: cs =>
    genderPosGo (i + 1) (if strStarts c "Male " || strStarts c "Female " then i else acc) cs

/-- Index of the gender token in the first defendant row. -/
def genderPos (row : List String) : Nat :=
  genderPosGo 0 0 row

/-- Allow-list for `"appointed or retained"` (`src/shared/pre2017.py:139`). -/
def allowedStates : List String :=
  ["Appointed", "Retained", "Court Appointed", "Pro Se"]

/-- Priority-ordered fallback phrases (`src/shared/pre2017.py:140-145`). -/
def checkPhrases : List String :=
  ["Court Appointed", "Retained", "Appointed", "Pro Se"]

/-- The party-information branch of the legacy parser
(`src/shared/pre2017.py:37-153`), taking the extracted text rows of the
party table. `none` embeds an uncaught `IndexError`. -/
def parsePartyRows (raw : List (List String)) : Option PartyInfo := do
  let rows := raw.filter (fun r => r ≠ [])
  let secs := partySections rows
  let state_rows := secs.1.reverse
  let defendant_rows := secs.2.1.reverse
  let d0 ← defendant_rows.head?
  let gp := genderPos d0
  let d1 ← if gp > 2 then
      (d0.head?).map (fun hd =>
        hd :: joinSep " " ((d0.take gp).drop 1) :: d0.drop gp)
    else some d0
  let d2 := if gp = 0 then pyInsert 2 "Unavailable Unavailable" d1 else d1
  let defendant_rows := d2 :: defendant_rows.tail
  let bondsman_rows := secs.2.2.reverse
  let b0 ← bondsman_rows.head?
  let b00 ← b0.head?
  let bondsman_rows := if b00 ≠ "Bondsman" then ([] : List (List String)) else bondsman_rows
  let hw := decide (4 < d2.length) && strHasSub (d2.getD 4 "") ","
  let idxAdj := if hw then 0 else 1
  let dName ← d2.get? 1
  let c2 ← d2.get? 2
  let sexTok ← (pySplitWs c2).head?
  let s0 ← state_rows.head?
  let bName ← if bondsman_rows.isEmpty then some ""
    else (bondsman_rows.headD []).get? 1
  let pi0 : PartyInfo :=
    { defendant := dName
      sex := sexTok
      race := if 3 < d2.length then joinSep " " ((pySplitWs c2).drop 1)
        else "Unavailable"
      dateOfBirth := if 3 < d2.length ∧ 1 < (pySplitWs (d2.getD 3 "")).length then
          (pySplitWs (d2.getD 3 "")).getD 1 ""
        else ""
      height := if hw then (pySplitOnComma (d2.getD 4 "")).getD 0 "" else ""
      weight := if hw then pyStrDrop 1 ((pySplitOnComma (d2.getD 4 "")).getD 1 "") else ""
      defenseAttorney := if 5 - idxAdj < d2.length then d2.getD (5 - idxAdj) "" else ""
      appointedOrRetained := if 6 - idxAdj < d2.length then d2.getD (6 - idxAdj) "" else ""
      defenseAttorneyPhone := if 7 - idxAdj < d2.length then d2.getD (7 - idxAdj) "" else ""
      defendantAddress := joinSep ", "
        (if 1 < defendant_rows.length then
          (defendant_rows.getD 1 []).take ((defendant_rows.getD 1 []).length - 2)
        else [])
      sid := if 1 < defendant_rows.length then (defendant_rows.getD 1 []).getLastD ""
        else ""
      prosecutingAttorney := if 2 < s0.length then s0.getD 2 "" else ""
      prosecutingAttorneyPhone := if 3 < s0.length then s0.getD 3 "" else ""
      prosecutingAttorneyAddress := joinSep ", "
        (if 1 < state_rows.length then state_rows.getD 1 [] else [])
      bondsman := bName
      bondsmanAddress := if 1 < bondsman_rows.length then
          joinSep ", " (bondsman_rows.getD 1 [])
        else "" }
  let aor := if pi0.appointedOrRetained ∈ allowedStates then pi0.appointedOrRetained
    else (checkPhrases.find? (fun p =>
      listHasSub (lowerChars (pyReprRows defendant_rows)) (lowerChars p.data))).getD ""
  some { pi0 with appointedOrRetained := aor }

/-- The waiver phrase scanned for in the events table
(`src/shared/pre2017.py:206`). -/
def waiverPhrase : String := "waiver of right to counsel"

/-- The post-events fixup (`src/shared/pre2017.py:204-209`): when
`"appointed or retained"` is empty and `str(other_event_rows).lower()`
contains the waiver phrase, set it to `"Waived right to counsel"`. -/
def eventsUpdateParty (pi : PartyInfo) (otherEventRows : List (List String)) : PartyInfo :=
  if pi.appointedOrRetained = "" then
    if listHasSub (lowerChars (pyReprRows otherEventRows)) waiverPhrase.data then
      { pi with appointedOrRetained := "Waived right to counsel" }
    else pi
  else pi

/-! ## Supporting lemmas -/

theorem listStarts_nil (h : List Char) : listStarts h [] = true := by
  cases h <;> rfl

theorem listHasSub_cons (x : Char) (xs n : List Char) :
    listHasSub (x :: xs) n = (listStarts (x :: xs) n || listHasSub xs n) := rfl

theorem listStarts_append (n c : List Char) : listStarts (n ++ c) n = true := by
  induction n with
  | nil => exact listStarts_nil c
  | cons a as ih => simp [listStarts, ih]

theorem listHasSub_of_starts (h n : List Char) (hs : listStarts h n = true) :
    listHasSub h n = true := by
  cases h with
  | nil => exact hs
  | cons a t => simp [listHasSub_cons, hs]

theorem listHasSub_sandwich (a n c : List Char) :
    listHasSub (a ++ (n ++ c)) n = true := by
  induction a with
  | nil => exact listHasSub_of_starts _ _ (listStarts_append n c)
  | cons x xs ih =>
    rw [List.cons_append, listHasSub_cons, ih]
    simp

theorem listStarts_decomp (n : List Char) : ∀ h : List Char,
    listStarts h n = true → ∃ c, h = n ++ c := by
  induction n with
  | nil => intro h _; exact ⟨h, rfl⟩
  | cons b bs ih =>
    intro h hs
    cases h with
    | nil => simp [listStarts] at hs
    | cons a t =>
      simp only [listStarts] at hs
      split at hs
      · next hab =>
        obtain ⟨c, hc⟩ := ih t hs
        exact ⟨c, by simp [hab, hc]⟩
      · exact absurd hs (by simp)

theorem listHasSub_decomp (n : List Char) : ∀ h : List Char,
    listHasSub h n = true → ∃ a c, h = a ++ (n ++ c) := by
  intro h
  induction h with
  | nil =>
    intro hs
    obtain ⟨c, hc⟩ := listStarts_decomp n [] hs
    exact ⟨[], c, hc⟩
  | cons x xs ih =>
    intro hs
    simp only [listHasSub, Bool.or_eq_true] at hs
    rcases hs with hs | hs
    · obtain ⟨c, hc⟩ := listStarts_decomp n (x :: xs) hs
      exact ⟨[], c, hc⟩
    · obtain ⟨a, c, hc⟩ := ih hs
      exact ⟨x :: a, c, by simp [hc]⟩

theorem listHasSub_of_inner (h n pre post : List Char) (hs : listHasSub h n = true) :
    listHasSub (pre ++ h ++ post) n = true := by
  obtain ⟨a, c, hc⟩ := listHasSub_decomp n h hs
  subst hc
  have : pre ++ (a ++ (n ++ c)) ++ post = (pre ++ a) ++ (n ++ (c ++ post)) := by
    simp [List.append_assoc]
  rw [this]
  exact listHasSub_sandwich _ _ _

theorem joinChars_mem_decomp (sep : List Char) {α : Type} (f : α → List Char)
    (x : α) : ∀ l : List α, x ∈ l →
    ∃ a c, joinChars sep (l.map f) = a ++ (f x ++ c) := by
  intro l
  induction l with
  | nil => intro hx; exact absurd hx (List.not_mem_nil x)
  | cons y ys ih =>
    intro hx
    cases ys with
    | nil =>
      rcases List.mem_cons.mp hx with hxy | hxy
      · subst hxy
        exact ⟨[], [], by simp [joinChars]⟩
      · exact absurd hxy (List.not_mem_nil x)
    | cons z zs =>
      rcases List.mem_cons.mp hx with hxy | hxy
      · subst hxy
        exact ⟨[], sep ++ joinChars sep ((z :: zs).map f),
          by simp [joinChars, List.append_assoc]⟩
      · obtain ⟨a, c, hc⟩ := ih hxy
        refine ⟨f y ++ sep ++ a, c, ?_⟩
        simp only [List.map_cons, joinChars] at hc ⊢
        simp [hc, List.append_assoc]

theorem pyReprRows_decomp (cell : String) (row : List String)
    (rows : List (List String)) (hrow : row ∈ rows) (hcell : cell ∈ row) :
    ∃ a c, pyReprRows rows = a ++ (cell.data ++ c) := by
  obtain ⟨a1, c1, h1⟩ := joinChars_mem_decomp sepCS pyReprRow row rows hrow
  obtain ⟨a2, c2, h2⟩ := joinChars_mem_decomp sepCS pyReprStr cell row hcell
  refine ⟨'[' :: a1 ++ ('[' :: a2) ++ [quoteChar],
    [quoteChar] ++ c2 ++ [']'] ++ c1 ++ [']'], ?_⟩
  simp only [pyReprRows, h1, pyReprRow, h2, pyReprStr]
  simp [List.append_assoc]

theorem lowerChars_append (a b : List Char) :
    lowerChars (a ++ b) = lowerChars a ++ lowerChars b := by
  simp [lowerChars]

/-! ### Retry-loop lemmas -/

theorem retryLoop_fail (resp : Nat → HttpResponse) (m : Nat)
    (hf : ∀ j, (resp j).ok = false) :
    ∀ i, i ≤ m → retryLoop resp m i = (none, m + 1) := by
  have H : ∀ f i, m - i = f → i ≤ m → retryLoop resp m i = (none, m + 1) := by
    intro f
    induction f with
    | zero =>
      intro i hfi hi
      have him : i = m := by omega
      subst him
      rw [retryLoop]
      simp [hf i]
    | succ f ih =>
      intro i hfi hi
      rw [retryLoop]
      rw [if_neg (by simp [hf i]), if_neg (by omega)]
      exact ih (i + 1) (by omega) (by omega)
  intro i hi
  exact H (m - i) i rfl hi

theorem retryLoop_success (resp : Nat → HttpResponse) (m k : Nat)
    (hk : k ≤ m) (hok : (resp k).ok = true)
    (hf : ∀ j, j < k → (resp j).ok = false) :
    ∀ i, i ≤ k → retryLoop resp m i = (some (resp k), k + 1) := by
  have H : ∀ f i, k - i = f → i ≤ k → retryLoop resp m i = (some (resp k), k + 1) := by
    intro f
    induction f with
    | zero =>
      intro i hfi hi
      have hik : i = k := by omega
      subst hik
      rw [retryLoop]
      simp [hok]
    | succ f ih =>
      intro i hfi hi
      have hlt : i < k := by omega
      rw [retryLoop]
      rw [if_neg (by simp [hf i hlt]), if_neg (by omega)]
      exact ih (i + 1) (by omega) (by omega)
  intro i hi
  exact H (k - i) i rfl hi

/-! ### Batch-slicing lemmas -/

theorem sliceBatches_bound {α : Type} (bs : Nat) (hbs : 0 < bs) :
    ∀ (n : Nat) (l : List α), l.length ≤ n →
    ∀ b ∈ sliceBatches bs l, b.length ≤ bs := by
  intro n
  induction n with
  | zero =>
    intro l hl b hb
    have : l = [] := by cases l with | nil => rfl | cons x xs => simp at hl
    subst this
    rw [sliceBatches] at hb
    simp at hb
  | succ n ih =>
    intro l hl b hb
    rw [sliceBatches] at hb
    by_cases hc : bs = 0 ∨ l.isEmpty = true
    · rw [dif_pos hc] at hb
      simp at hb
    · rw [dif_neg hc] at hb
      rw [not_or] at hc
      obtain ⟨h1, h2⟩ := hc
      have h3 : l ≠ [] := by intro he; exact h2 (by simp [he])
      have h4 : 0 < l.length := List.length_pos.mpr h3
      rcases List.mem_cons.mp hb with hb1 | hb2
      · subst hb1
        simp [List.length_take]
      · exact ih (l.drop bs) (by simp [List.length_drop]; omega) b hb2

theorem sliceBatches_flatten {α : Type} (bs : Nat) (hbs : 0 < bs) :
    ∀ (n : Nat) (l : List α), l.length ≤ n →
    (sliceBatches bs l).flatten = l := by
  intro n
  induction n with
  | zero =>
    intro l hl
    have : l = [] := by cases l with | nil => rfl | cons x xs => simp at hl
    subst this
    rw [sliceBatches]
    simp
  | succ n ih =>
    intro l hl
    rw [sliceBatches]
    by_cases hc : bs = 0 ∨ l.isEmpty = true
    · rw [dif_pos hc]
      rcases hc with hc | hc
      · omega
      · have : l = [] := by
          cases l with | nil => rfl | cons x xs => simp at hc
        simp [this]
    · rw [dif_neg hc]
      rw [not_or] at hc
      obtain ⟨h1, h2⟩ := hc
      have h3 : l ≠ [] := by intro he; exact h2 (by simp [he])
      have h4 : 0 < l.length := List.length_pos.mpr h3
      have ihd := ih (l.drop bs) (by simp [List.length_drop]; omega)
      simp [ihd]

theorem sliceBatches_count {α : Type} (bs : Nat) (hbs : 0 < bs) :
    ∀ (n : Nat) (l : List α), l.length ≤ n →
    (sliceBatches bs l).length = (l.length + bs - 1) / bs := by
  intro n
  induction n with
  | zero =>
    intro l hl
    have : l = [] := by cases l with | nil => rfl | cons x xs => simp at hl
    subst this
    rw [sliceBatches]
    simp [Nat.div_eq_of_lt (by omega : bs - 1 < bs)]
  | succ n ih =>
    intro l hl
    rw [sliceBatches]
    by_cases hc : bs = 0 ∨ l.isEmpty = true
    · rw [dif_pos hc]
      rcases hc with hc | hc
      · omega
      · have : l = [] := by
          cases l with | nil => rfl | cons x xs => simp at hc
        simp [this, Nat.div_eq_of_lt (by omega : bs - 1 < bs)]
    · rw [dif_neg hc]
      rw [not_or] at hc
      obtain ⟨h1, h2⟩ := hc
      have h3 : l ≠ [] := by intro he; exact h2 (by simp [he])
      have h4 : 0 < l.length := List.length_pos.mpr h3
      have ihd := ih (l.drop bs) (by simp [List.length_drop]; omega)
      simp only [List.length_cons, ihd, List.length_drop]
      have hr : l.length + bs - 1 = (l.length - 1) + bs := by omega
      rw [hr, Nat.add_div_right _ hbs]
      rcases le_or_lt bs l.length with hble | hblt
      · have : l.length - bs + bs - 1 = l.length - 1 := by omega
        rw [this]
      · have h5 : l.length - bs = 0 := by omega
        rw [h5]
        have h6 : (0 + bs - 1) / bs = 0 := Nat.div_eq_of_lt (by omega)
        have h7 : (l.length - 1) / bs = 0 := Nat.div_eq_of_lt (by omega)
        omega

/-! ## Claim theorems -/

/-- Claim C1: the work partitioning of the legacy batching branch is
exhaustive, non-overlapping and bounded — every batch is a contiguous
chunk of at most `bs` references taken in order, concatenating the batches
in order reproduces the original reference sequence exactly, and 250
references with batch size 50 give exactly 5 batches. This holds of the
slicing loop with the batch-size constant bound as intended; as written,
`src/http-scraper/__init__.py:200` reads the undefined name
`cases_batch_size` (the module constant is `CASE_BATCH_SIZE`), so the
branch raises `NameError` at runtime. -/
theorem claim1_partition {α : Type} (bs : Nat) (l : List α) (hbs : 0 < bs) :
    (∀ b ∈ sliceBatches bs l, b.length ≤ bs) ∧
    (sliceBatches bs l).flatten = l ∧
    (l.length = 250 → bs = 50 → (sliceBatches bs l).length = 5) := by
  refine ⟨sliceBatches_bound bs hbs l.length l le_rfl ,
    sliceBatches_flatten bs hbs l.length l le_rfl, ?_⟩
  intro h250 h50
  rw [sliceBatches_count bs hbs l.length l le_rfl, h250, h50]

/-- Witness for C1 at a concrete sequence of 250 references split with
batch size 50. -/
theorem claim1_witness :
    0 < 50 ∧ (sliceBatches 50 (List.range 250)).flatten = List.range 250 ∧
    (sliceBatches 50 (List.range 250)).length = 5 := by
  have h := claim1_partition 50 (List.range 250) (by norm_num)
  exact ⟨by norm_num, h.2.1, h.2.2 (by simp) rfl⟩

/-- Claim C3: when every attempt returns a non-success status,
`request_page_with_retry` issues exactly `maxRetries + 1` transport
attempts and then raises (`src/shared/helpers.py:112-131`). -/
theorem claim3_retry_budget (resp : Nat → HttpResponse) (v : String) (m : Nat)
    (hf : ∀ j, (resp j).ok = false) :
    request_page_with_retry resp v m = Except.error (writeDebugMsg v) ∧
    requestAttempts resp m = m + 1 := by
  have h := retryLoop_fail resp m hf 0 (Nat.zero_le m)
  constructor
  · simp [request_page_with_retry, h]
  · simp [requestAttempts, h]

/-- A transport that always fails. -/
def respAllFail : Nat → HttpResponse := fun _ => ⟨false, "transport error"⟩

/-- Witness for C3: with `maxRetries = 5` a permanently failing fetch makes
exactly 6 attempts and raises. -/
theorem claim3_witness :
    request_page_with_retry respAllFail "Record Count" 5 =
      Except.error "Record Count could not be found in page." ∧
    requestAttempts respAllFail 5 = 6 := by
  have h := claim3_retry_budget respAllFail "Record Count" 5 (fun j => rfl)
  exact ⟨h.1, h.2⟩

/-- Claim C4: on the first success (attempt `k`), a response containing the
non-empty expected marker is returned unchanged, while a response lacking
it raises terminally with exactly `k + 1` attempts issued — the marker
check happens only after transport success and its failure is never
retried (`src/shared/helpers.py:120-139`). -/
theorem claim4_marker_validation (resp : Nat → HttpResponse) (v : String)
    (m k : Nat) (hv : v ≠ "") (hk : k ≤ m) (hok : (resp k).ok = true)
    (hf : ∀ j, j < k → (resp j).ok = false) :
    (strHasSub (resp k).text v = true →
      request_page_with_retry resp v m = Except.ok (resp k).text ∧
      requestAttempts resp m = k + 1) ∧
    (strHasSub (resp k).text v = false →
      request_page_with_retry resp v m = Except.error (writeDebugMsg v) ∧
      requestAttempts resp m = k + 1) := by
  have h := retryLoop_success resp m k hk hok hf 0 (Nat.zero_le k)
  constructor
  · intro hs
    constructor
    · simp [request_page_with_retry, h, hs]
    · simp [requestAttempts, h]
  · intro hs
    constructor
    · simp [request_page_with_retry, h, hs, hv]
    · simp [requestAttempts, h]

/-- A transport that succeeds immediately with a marked page. -/
def respMarked : Nat → HttpResponse := fun _ => ⟨true, "page with Record Count inside"⟩

/-- Witness for C4: an immediately successful response containing the
marker is returned unchanged after one attempt. -/
theorem claim4_witness :
    request_page_with_retry respMarked "Record Count" 5 =
      Except.ok "page with Record Count inside" ∧
    requestAttempts respMarked 5 = 1 := by
  have h := (claim4_marker_validation respMarked "Record Count" 5 0
    (by decide) (Nat.zero_le 5) rfl
    (fun j hj => absurd hj (Nat.not_lt_zero j))).1 (by decide)
  exact ⟨h.1, h.2⟩

/-! ### Table-stripping lemmas -/

theorem removeFirstTab_append (l m : List Chunk) (h : findTables l = []) :
    removeFirstTab (l ++ m) = l ++ removeFirstTab m := by
  induction l with
  | nil => rfl
  | cons c rest ih =>
    cases c with
    | table t => simp [findTables, List.filterMap_cons] at h
    | markup s =>
      have h' : findTables rest = [] := by
        simpa [findTables, List.filterMap_cons] using h
      simp [removeFirstTab, Chunk.isTable, ih h']

theorem removeLastTab_sandwich (pre post : List Chunk) (t : TableNode)
    (hpost : findTables post = []) :
    removeLastTab (pre ++ Chunk.table t :: post) = pre ++ post := by
  unfold removeLastTab
  have h1 : (pre ++ Chunk.table t :: post).reverse
      = post.reverse ++ (Chunk.table t :: pre.reverse) := by
    simp
  rw [h1]
  have h2 : findTables post.reverse = [] := by
    simp only [findTables, List.filterMap_reverse]
    simp only [findTables] at hpost
    simp [hpost]
  rw [removeFirstTab_append post.reverse _ h2]
  simp [removeFirstTab, Chunk.isTable]

theorem findTables_sandwich_getLast (pre post : List Chunk) (t : TableNode)
    (hpost : findTables post = []) :
    (findTables (pre ++ Chunk.table t :: post)).getLast? = some t := by
  have h : findTables (pre ++ Chunk.table t :: post) = findTables pre ++ [t] := by
    simp only [findTables, List.filterMap_append, List.filterMap_cons]
    simp only [findTables] at hpost
    simp [hpost]
  rw [h, List.getLast?_concat]

/-- Claim C2: the content fingerprint is deterministic, and two case
documents that agree except for the contents of the trailing (last) table,
both of whose texts contain `"Balance Due"`, receive identical
fingerprints (`src/shared/helpers.py:180-198`). -/
theorem claim2_dedupe_insensitive (d1 d2 : CaseHtml) (pre post : List Chunk)
    (t1 t2 : TableNode)
    (hspans : d1.caseNbrSpans = d2.caseNbrSpans)
    (h1 : d1.chunks = pre ++ Chunk.table t1 :: post)
    (h2 : d2.chunks = pre ++ Chunk.table t2 :: post)
    (hpost : findTables post = [])
    (hb1 : strHasSub t1.text "Balance Due" = true)
    (hb2 : strHasSub t2.text "Balance Due" = true) :
    hash_case_html d1 = hash_case_html d1 ∧
    hash_case_html d1 = hash_case_html d2 := by
  refine ⟨rfl, ?_⟩
  unfold hash_case_html
  rw [hspans, h1, h2,
    findTables_sandwich_getLast pre post t1 hpost,
    findTables_sandwich_getLast pre post t2 hpost]
  cases hh : d2.caseNbrSpans.head? with
  | none => simp
  | some c =>
    simp [hb1, hb2, removeLastTab_sandwich pre post t1 hpost,
      removeLastTab_sandwich pre post t2 hpost]

/-- Witness for C2 at two concrete documents differing only in the balance
amount of their trailing balance table. -/
theorem claim2_witness :
    strHasSub "Balance Due 10" "Balance Due" = true ∧
    strHasSub "Balance Due 20" "Balance Due" = true ∧
    hash_case_html ⟨["CR-1"], [Chunk.markup "<div>x</div>",
        Chunk.table ⟨"Balance Due 10", "<table>10</table>"⟩]⟩ =
      hash_case_html ⟨["CR-1"], [Chunk.markup "<div>x</div>",
        Chunk.table ⟨"Balance Due 20", "<table>20</table>"⟩]⟩ := by
  refine ⟨by decide, by decide, ?_⟩
  exact (claim2_dedupe_insensitive
    ⟨["CR-1"], [Chunk.markup "<div>x</div>",
      Chunk.table ⟨"Balance Due 10", "<table>10</table>"⟩]⟩
    ⟨["CR-1"], [Chunk.markup "<div>x</div>",
      Chunk.table ⟨"Balance Due 20", "<table>20</table>"⟩]⟩
    [Chunk.markup "<div>x</div>"] []
    ⟨"Balance Due 10", "<table>10</table>"⟩
    ⟨"Balance Due 20", "<table>20</table>"⟩
    rfl rfl rfl rfl (by decide) (by decide)).2

set_option maxRecDepth 65536

/-- Claim C5 counterexample: on a synthetic party table whose rows are
`["State",...]`, `["Defendant",...]`, `["Bondsman",...]` in that order, the
bottom-up loop consumes the `"Bondsman"` row first and stops at once, so
the defendant section is empty and the parser crashes with an `IndexError`
at `defendant_rows[0]` (`src/shared/pre2017.py:68`) instead of producing a
record. -/
theorem claim5_counterexample :
    parsePartyRows [["State", "Atty Name", "555-0000"],
      ["Defendant", "Jane Doe", "Female White", "DOB: 1/1/1990"],
      ["Bondsman", "Bail Co"]] = none := by decide

/-- Claim C5 (amended): with the same three rows in the order `"Bondsman"`,
`"Defendant"`, `"State"` — so that the bottom-up consumption meets the
`"State"` row first — the parser classifies each row into its section and
recovers `sex = "Female"` and `race = "White"`. -/
theorem claim5_amended_parse :
    partySections [["Bondsman", "Bail Co"],
      ["Defendant", "Jane Doe", "Female White", "DOB: 1/1/1990"],
      ["State", "Atty Name", "555-0000"]] =
      ([["State", "Atty Name", "555-0000"]],
       [["Defendant", "Jane Doe", "Female White", "DOB: 1/1/1990"]],
       [["Bondsman", "Bail Co"]]) ∧
    parsePartyRows [["Bondsman", "Bail Co"],
      ["Defendant", "Jane Doe", "Female White", "DOB: 1/1/1990"],
      ["State", "Atty Name", "555-0000"]] = some
      { defendant := "Jane Doe", sex := "Female", race := "White",
        dateOfBirth := "1/1/1990", height := "", weight := "",
        defenseAttorney := "", appointedOrRetained := "",
        defenseAttorneyPhone := "", defendantAddress := "", sid := "",
        prosecutingAttorney := "555-0000", prosecutingAttorneyPhone := "",
        prosecutingAttorneyAddress := "", bondsman := "Bail Co",
        bondsmanAddress := "" } := by
  constructor
  · decide
  · decide

/-! ### Inline-processing lemmas -/

theorem processInline_allOk {α : Type} (f : α → Bool) :
    ∀ s : List α, (∀ c ∈ s, f c = true) → processInline f false s = ⟨s, false, false⟩ := by
  intro s
  induction s with
  | nil => intro _; rfl
  | cons c cs ih =>
    intro h
    have hc := h c (List.mem_cons_self c cs)
    have ihr := ih (fun x hx => h x (List.mem_cons_of_mem c hx))
    simp [processInline, hc, ihr]

theorem processInline_test_le {α : Type} (f : α → Bool) (s : List α) :
    (processInline f true s).written.length ≤ 1 := by
  cases s with
  | nil => simp [processInline]
  | cons c cs =>
    cases hc : f c with
    | true => simp [processInline, hc]
    | false => simp [processInline, hc]

theorem processInline_test_stop {α : Type} (f : α → Bool) (s : List α)
    (h : (processInline f true s).testStop = false) :
    (processInline f true s).written = [] := by
  cases s with
  | nil => simp [processInline]
  | cons c cs =>
    cases hc : f c with
    | true => simp [processInline, hc] at h
    | false => simp [processInline, hc]

theorem handleResultSet_test {α : Type} (v bs : Nat) (f : α → Bool) (s : List α) :
    handleResultSet v bs f true s =
      ⟨(processInline f true s).written, [], (processInline f true s).testStop,
        (processInline f true s).aborted⟩ := by
  unfold handleResultSet
  by_cases hv : v < 2017
  · simp [hv]
  · simp [hv]

/-- Claim C6 counterexample: a modern-generation (`odyssey_version ≥ 2017`)
result set of 11 references — above the inline threshold, test flag unset —
is nevertheless fetched entirely inline and nothing is batched
(`src/http-scraper/__init__.py:223-268` has no batching branch), so the
claimed policy does not hold for every result set. -/
theorem claim6_counterexample :
    10 < (List.range 11).length ∧
    (handleResultSet 2017 50 (fun _ => true) false (List.range 11)).written =
      List.range 11 ∧
    (handleResultSet 2017 50 (fun _ => true) false (List.range 11)).batches = [] := by
  decide

/-- Claim C6 (amended): for a legacy result set, at most 10 references or a
test run means inline fetching and nothing enqueued — all references when
the test flag is unset and every fetch succeeds, at most one case when the
test flag is set — while more than 10 references on a non-test run means
nothing is fetched inline and the references are split into contiguous
batches of at most `bs` that together cover the set exactly
(`src/http-scraper/__init__.py:173-221`). -/
theorem claim6_inline_policy {α : Type} (v bs : Nat) (f : α → Bool) (t : Bool)
    (s : List α) (hv : v < 2017) (hbs : 0 < bs) :
    ((s.length ≤ 10 ∨ t = true) → (handleResultSet v bs f t s).batches = []) ∧
    (t = false → s.length ≤ 10 → (∀ c ∈ s, f c = true) →
      (handleResultSet v bs f t s).written = s) ∧
    (t = true → (handleResultSet v bs f t s).written.length ≤ 1) ∧
    (t = false → 10 < s.length →
      (handleResultSet v bs f t s).written = [] ∧
      (handleResultSet v bs f t s).batches = sliceBatches bs s ∧
      (sliceBatches bs s).flatten = s ∧
      ∀ b ∈ sliceBatches bs s, b.length ≤ bs) := by
  refine ⟨?_, ?_, ?_, ?_⟩
  · intro hor
    rcases hor with h10 | ht
    · simp [handleResultSet, hv, h10]
    · subst ht
      rw [handleResultSet_test]
  · intro ht h10 hall
    subst ht
    simp [handleResultSet, hv, h10, processInline_allOk f s hall]
  · intro ht
    subst ht
    rw [handleResultSet_test]
    exact processInline_test_le f s
  · intro ht h10
    subst ht
    have hcond : ¬(s.length ≤ 10) := by omega
    simp only [handleResultSet, if_pos hv]
    rw [if_neg (by simp [hcond])]
    exact ⟨rfl, rfl, sliceBatches_flatten bs hbs s.length s le_rfl,
      sliceBatches_bound bs hbs s.length s le_rfl⟩

/-- Witness for C6 at a concrete legacy result set of 3 references on a
non-test run: all 3 fetched inline. -/
theorem claim6_witness :
    2016 < 2017 ∧ 0 < 50 ∧
    (handleResultSet 2016 50 (fun _ => (true : Bool)) false (List.range 3)).written =
      List.range 3 := by
  refine ⟨by norm_num, by norm_num, ?_⟩
  exact (claim6_inline_policy 2016 50 (fun _ => (true : Bool)) false (List.range 3)
    (by norm_num) (by norm_num)).2.1 rfl (by simp) (fun c _ => rfl)

/-- Claim C7: after the events table is processed, an empty
`"appointed or retained"` field is set to `"Waived right to counsel"` as
soon as some cell of the other-events rows contains the waiver phrase
case-insensitively, and a non-empty field is left unchanged
(`src/shared/pre2017.py:204-209`). -/
theorem claim7_waiver_fixup (pi : PartyInfo) (rows : List (List String)) :
    (pi.appointedOrRetained = "" →
      (∃ row ∈ rows, ∃ cell ∈ row,
        listHasSub (lowerChars cell.data) waiverPhrase.data = true) →
      (eventsUpdateParty pi rows).appointedOrRetained = "Waived right to counsel") ∧
    (pi.appointedOrRetained ≠ "" → eventsUpdateParty pi rows = pi) := by
  constructor
  · intro he hex
    obtain ⟨row, hrow, cell, hcell, hsub⟩ := hex
    obtain ⟨a, c, hac⟩ := pyReprRows_decomp cell row rows hrow hcell
    have hcond : listHasSub (lowerChars (pyReprRows rows)) waiverPhrase.data = true := by
      rw [hac, lowerChars_append, lowerChars_append]
      have hin := listHasSub_of_inner (lowerChars cell.data) waiverPhrase.data
        (lowerChars a) (lowerChars c) hsub
      simpa [List.append_assoc] using hin
    unfold eventsUpdateParty
    rw [if_pos he, if_pos hcond]
  · intro hne
    unfold eventsUpdateParty
    rw [if_neg hne]

/-- A party record with every field empty. -/
def piEmptyAor : PartyInfo :=
  ⟨"", "", "", "", "", "", "", "", "", "", "", "", "", "", "", ""⟩

/-- Witness for C7 at a concrete empty record and a concrete events table
containing the waiver row. -/
theorem claim7_witness :
    piEmptyAor.appointedOrRetained = "" ∧
    (eventsUpdateParty piEmptyAor
      [["Motion"], ["Waiver of Right to Counsel"]]).appointedOrRetained =
      "Waived right to counsel" := by
  refine ⟨rfl, ?_⟩
  exact (claim7_waiver_fixup piEmptyAor
    [["Motion"], ["Waiver of Right to Counsel"]]).1 rfl
    ⟨["Waiver of Right to Counsel"], by simp,
      "Waiver of Right to Counsel", by simp, by decide⟩

/-- Claim C8: the legacy harvest step never completes — building the search
session dereferences `main_soup`, a name with no binding in `main`
(`src/http-scraper/__init__.py:104`), so a legacy run raises `NameError`
before a session with a location node id can be produced. -/
theorem claim8_legacy_harvest_fails (s : PageSoup) (loc : Option String) :
    legacyHarvest s loc = none := rfl

/-- Claim C9: with the test-mode flag set, the whole run writes at most one
case document, no matter how many result sets (days × officers) and
references remain (`src/http-scraper/__init__.py:191-194` and `266-268`). -/
theorem claim9_test_single_write {α : Type} (v bs : Nat) (f : α → Bool)
    (sets : List (List α)) :
    ((runSets v bs f true sets).written).length ≤ 1 := by
  induction sets with
  | nil => simp [runSets]
  | cons s rest ih =>
    rw [runSets, handleResultSet_test]
    by_cases hst : (processInline f true s).testStop = true
    · simp [hst]
      exact processInline_test_le f s
    · have hw : (processInline f true s).written = [] :=
        processInline_test_stop f s (Bool.not_eq_true _ ▸ hst)
      by_cases hab : (processInline f true s).aborted = true
      · simp [hab, hw]
      · simp [hst, hab, hw]
        exact ih

/-! ### Officer-lookup lemmas -/

theorem filterMap_skip_missing {β : Type} (name : String) (g : String → Option β)
    (hg : g name = none) :
    ∀ officers : List String,
      officers.filterMap g = (officers.filter (fun o => o ≠ name)).filterMap g := by
  intro officers
  induction officers with
  | nil => rfl
  | cons o os ih =>
    by_cases ho : o = name
    · subst ho
      simp [List.filterMap_cons, hg, List.filter_cons, ih]
    · simp [List.filterMap_cons, List.filter_cons, ho, ih]

/-- Claim C10: a requested judicial-officer name absent from the harvested
name-to-id mapping is skipped — no search is submitted with that name and
the submissions for every remaining (day, officer) pair are exactly those
of the run without the missing name (`src/http-scraper/__init__.py:138-144`). -/
theorem claim10_missing_officer_skipped (days officers : List String)
    (m : List (String × String)) (name : String)
    (h : List.lookup name m = none) :
    (∀ e ∈ submitSearches days officers m, e.2.1 ≠ name) ∧
    submitSearches days officers m =
      submitSearches days (officers.filter (fun o => o ≠ name)) m := by
  constructor
  · intro e he hne
    unfold submitSearches at he
    rw [List.mem_flatMap] at he
    obtain ⟨d, hd, he⟩ := he
    rw [List.mem_filterMap] at he
    obtain ⟨o, ho, hoe⟩ := he
    cases hlk : List.lookup o m with
    | none => rw [hlk] at hoe; simp at hoe
    | some jid =>
      rw [hlk] at hoe
      simp only [Option.map_some'] at hoe
      have hoe2 : (d, o, jid) = e := Option.some.inj hoe
      subst hoe2
      have hon : o = name := hne
      rw [hon] at hlk
      rw [h] at hlk
      exact Option.noConfusion hlk
  · unfold submitSearches
    have hfn : (fun (d : String) => officers.filterMap (fun nm =>
        (List.lookup nm m).map (fun jid => (d, nm, jid)))) =
        (fun (d : String) => (officers.filter (fun o => o ≠ name)).filterMap (fun nm =>
          (List.lookup nm m).map (fun jid => (d, nm, jid)))) := by
      funext d
      exact filterMap_skip_missing name _ (by simp [h]) officers
    rw [hfn]

/-- Witness for C10: one day, officers "Judge A" and "Judge B", a mapping
containing only "Judge A". -/
theorem claim10_witness :
    (∀ e ∈ submitSearches ["01/02/2003"] ["Judge A", "Judge B"]
        [("Judge A", "38501")], e.2.1 ≠ "Judge B") ∧
    submitSearches ["01/02/2003"] ["Judge A", "Judge B"] [("Judge A", "38501")] =
      submitSearches ["01/02/2003"]
        (["Judge A", "Judge B"].filter (fun o => o ≠ "Judge B"))
        [("Judge A", "38501")] := by
  exact claim10_missing_officer_skipped ["01/02/2003"] ["Judge A", "Judge B"]
    [("Judge A", "38501")] "Judge B" (by decide)

end CourtScraper
